import Mathlib

/-!
Verification of the request/auth/pagination/error pipeline of the
app-store-connect-wrapper Rust library, as a shallow embedding in Lean.

External collaborators (the HTTP transport, the `url` crate's URL parser,
the filesystem, the JWT signer and the textual JSON parser of `serde_json`)
are modelled as parameters or as already-applied results; everything else is
translated from the source files `src/rust/src/base.rs`, `src/rust/src/auth.rs`,
`src/rust/src/error.rs` and `src/rust/src/api/versions.rs`.
-/

namespace Asc

/-- JSON values, the embedding of `serde_json::Value`.  Objects are
association lists (serde_json maps have unique keys; lookup takes the first
binding).  Numbers are modelled as integers, which suffices for every value
these claims touch. -/
inductive Json where
  | null : Json
  | bool (b : Bool) : Json
  | num (n : Int) : Json
  | str (s : String) : Json
  | arr (elems : List Json) : Json
  | obj (fields : List (String × Json)) : Json
deriving Inhabited

/-- `Value::get(key)` on an object; `None` on any other variant. -/
def Json.getField : Json → String → Option Json
  | .obj fields, key => fields.lookup key
  | _, _ => none

/-- `Value::as_str()`. -/
def Json.asStr : Json → Option String
  | .str s => some s
  | _ => none

/-- `Value::as_array()`. -/
def Json.asArr : Json → Option (List Json)
  | .arr elems => some elems
  | _ => none

/-- `Value::as_object()`, returning the field list. -/
def Json.asObj : Json → Option (List (String × Json))
  | .obj fields => some fields
  | _ => none

/-- The closed error taxonomy of `error.rs` (`enum AppStoreConnectError`).
Variants that wrap a foreign error type (`reqwest::Error`,
`serde_json::Error`, `std::env::VarError`, `std::io::Error`,
`jsonwebtoken::errors::Error`) carry no payload or a message string here,
since the claims only ever branch on the kind. -/
inductive AscError where
  | Authentication (message : String)
  | RateLimit (message : String)
  | NotFound (message : String)
  | Validation (message : String)
  | Conflict (message : String)
  | Http (message : String)
  | JsonErr
  | EnvErr (message : String)
  | IoErr (message : String)
  | Jwt (message : String)
  | Api (message : String)
  | Unknown (message : String)
deriving DecidableEq, Inhabited

/-- `struct ApiError` of `base.rs`: one entry of a JSON:API error document.
All fields are `Option`al; `source` may be any JSON value. -/
structure ApiError where
  id : Option String := none
  status : Option String := none
  code : Option String := none
  title : Option String := none
  detail : Option String := none
  source : Option Json := none

/-- `struct ErrorResponse` of `base.rs`: `{ errors: Vec<ApiError> }`. -/
structure ErrorResponse where
  errors : List ApiError

/-- Serde decoding of an `Option<String>` field from an optional JSON value:
an absent field or JSON `null` decodes to `none`; a string decodes to
`some`; any other value is a decode failure. -/
def decodeOptString : Option Json → Option (Option String)
  | none => some none
  | some .null => some none
  | some (.str s) => some (some s)
  | some _ => none

/-- Serde decoding of one `ApiError` from a JSON value: must be an object;
each known field, when present, must be a string (or null); `source` may be
anything; unknown fields are ignored. -/
def decodeApiError (j : Json) : Option ApiError :=
  match j with
  | .obj fields => do
      let id ← decodeOptString (fields.lookup "id")
      let status ← decodeOptString (fields.lookup "status")
      let code ← decodeOptString (fields.lookup "code")
      let title ← decodeOptString (fields.lookup "title")
      let detail ← decodeOptString (fields.lookup "detail")
      pure { id := id, status := status, code := code, title := title,
             detail := detail, source := fields.lookup "source" }
  | _ => none

/-- Serde decoding of an `ErrorResponse` from a JSON value: an object with a
mandatory `errors` field holding an array each of whose elements decodes as
an `ApiError`. -/
def decodeErrorResponse (j : Json) : Option ErrorResponse :=
  match j with
  | .obj fields =>
      match fields.lookup "errors" with
      | some (.arr elems) => do
          let errors ← elems.mapM decodeApiError
          pure { errors := errors }
      | _ => none
  | _ => none

/-- `BaseAPI::extract_error_message`.  The Rust function parses the raw
response text as an `ErrorResponse`; here the text is represented by the
result of the textual JSON parse (`none` when the text is not valid JSON),
and the structural decode is `decodeErrorResponse`.  When the document
parses and the `errors` array is non-empty, the message is the first
entry's title, else detail, else code; otherwise no message. -/
def extractErrorMessage (parsed : Option Json) : Option String :=
  match parsed.bind decodeErrorResponse with
  | some errorResponse =>
      match errorResponse.errors.head? with
      | some e => (e.title.or e.detail).or e.code
      | none => none
  | none => none

/-- The `Display` rendering of `http::StatusCode` used in the catch-all
message of `handle_response` (external library behaviour, abstracted to the
numeric code). -/
def statusDisplay (status : Nat) : String := toString status

/-- `BaseAPI::handle_response`.  `textEmpty` is `response_text.is_empty()`;
`parsed` is the result of parsing the response text as JSON (`none` when
parsing fails; an empty text never parses). -/
def handleResponse (status : Nat) (textEmpty : Bool) (parsed : Option Json) :
    Except AscError Json :=
  if status = 200 ∨ status = 201 then
    if textEmpty then .ok (.obj [])
    else match parsed with
      | some v => .ok v
      | none => .error .JsonErr
  else if status = 204 then .ok (.obj [])
  else if status = 401 then
    .error (.Api "Authentication failed. Check your credentials.")
  else if status = 403 then
    .error (.Api "Forbidden. Check your permissions.")
  else if status = 404 then
    .error (.NotFound ((extractErrorMessage parsed).getD "Resource not found"))
  else if status = 409 then
    .error (.Conflict ((extractErrorMessage parsed).getD "Conflict occurred"))
  else if status = 422 then
    .error (.Validation ((extractErrorMessage parsed).getD "Validation failed"))
  else if status = 429 then
    .error (.RateLimit "API rate limit exceeded. Please wait before retrying.")
  else
    .error (.Api ("API request failed with status " ++ statusDisplay status ++
      ": " ++ ((extractErrorMessage parsed).getD "Unknown error")))

/-! ## Token provider (`auth.rs`) -/

/-- The JWT claims structure signed by `Auth::generate_token`
(`struct Claims` of `auth.rs`).  Timestamps are Unix seconds. -/
structure Claims where
  iss : String
  iat : Int
  exp : Int
  aud : String
deriving DecidableEq

/-- The JWT header built by `Auth::generate_token`: ES256, with the key
identifier and token type carried as metadata. -/
structure Header where
  alg : String
  kid : Option String
  typ : Option String
deriving DecidableEq

/-- `Auth::generate_token`, up to the external ES256 signing step: the
header and claims handed to `jsonwebtoken::encode`.  `now` is the Unix
timestamp of `Utc::now()`; `chrono::Duration::minutes(20)` adds exactly
1200 seconds. -/
def generateToken (keyId issuerId : String) (now : Int) : Header × Claims :=
  ({ alg := "ES256", kid := some keyId, typ := some "JWT" },
   { iss := issuerId, iat := now, exp := now + 20 * 60,
     aud := "appstoreconnect-v1" })

/-- The token cache guarded by the `RwLock` in `Auth`: an optional pair of
token string and recorded expiry timestamp. -/
abbrev TokenCache := Option (String × Int)

/-- `Auth::get_token`.  `now` is `Utc::now().timestamp()`; `fresh` is the
token string the external signer would produce for this call (signing
failure is out of scope of the cache logic).  Returns the token handed to
the caller together with the cache contents after the call. -/
def getToken (cache : TokenCache) (now : Int) (fresh : String) :
    String × TokenCache :=
  match cache with
  | some (token, expiry) =>
      if now < expiry - 60 then (token, some (token, expiry))
      else (fresh, some (fresh, now + 20 * 60))
  | none => (fresh, some (fresh, now + 20 * 60))

/-- The state of a freshly constructed `Auth` value. -/
structure AuthState where
  keyId : String
  issuerId : String
  tokenCache : TokenCache

/-- `Auth::new`.  The filesystem and the PEM parser are external: `fileExists`
is `path.exists()`, `readResult` the outcome of `tokio::fs::read_to_string`
(`Except.error` carries the io error text), and `ecPemParse` the outcome of
`EncodingKey::from_ec_pem` on the file content (`Except.error` carries the
crypto error text).  No transport is involved anywhere in construction. -/
def Auth.new (keyId issuerId path : String) (fileExists : Bool)
    (readResult : Except String String) (ecPemParse : String → Except String Unit) :
    Except AscError AuthState :=
  if ¬ fileExists then
    .error (.Authentication ("Private key file not found: " ++ path))
  else
    match readResult with
    | .error e => .error (.Authentication ("Failed to read private key file: " ++ e))
    | .ok content =>
        match ecPemParse content with
        | .error e => .error (.Authentication ("Failed to parse private key: " ++ e))
        | .ok _ => .ok { keyId := keyId, issuerId := issuerId, tokenCache := none }

/-! ## Paginator (`BaseAPI::get_all_pages`) -/

/-- `HashMap::insert` on the query-parameter map, represented as an
association list (the Rust `HashMap` is unordered): the binding for `key`
is replaced, other bindings are kept. -/
def insertParam (params : List (String × String)) (key value : String) :
    List (String × String) :=
  (key, value) :: params.filter (fun p => p.1 ≠ key)

/-- The query parameters of the first request of `get_all_pages`: the
caller's parameters with `limit` set to `min(limit, 200)` when a limit is
supplied and to `200` otherwise.  The Rust `limit` is a `u32`; `min` never
overflows, so `Nat` is faithful. -/
def initialParams (params : Option (List (String × String))) (limit : Option Nat) :
    List (String × String) :=
  match limit with
  | some l => insertParam (params.getD []) "limit" (toString (min l 200))
  | none => insertParam (params.getD []) "limit" (toString 200)

/-- The `data` array of a page, as extended into the accumulator:
`response.get("data").and_then(as_array)` contributes its elements, any
other shape contributes nothing. -/
def pageData (page : Json) : List Json :=
  match (page.getField "data").bind Json.asArr with
  | some elems => elems
  | none => []

/-- The continuation link of a page:
`response.get("links").and_then(as_object)` then `get("next").and_then(as_str)`. -/
def nextLink (page : Json) : Option String :=
  match (page.getField "links").bind Json.asObj with
  | some links =>
      match links.lookup "next" with
      | some j => j.asStr
      | none => none
  | none => none

/-- Whether the loop of `get_all_pages` continues after `page`: a `next`
link is present and `Url::parse` (the external `url` crate, abstracted as
`parseUrl`) accepts it. -/
def continuesAfter (parseUrl : String → Bool) (page : Json) : Bool :=
  match nextLink page with
  | some u => parseUrl u
  | none => false

/-- The loop of `BaseAPI::get_all_pages`, run against a transcript of
responses: each iteration of the Rust loop issues one GET and consumes the
next entry of `responses` (an `Except.error` entry is a failed page fetch,
which `?` propagates immediately).  The result is `none` when the loop
wants a further page but the transcript is exhausted — such a run is not
described by the transcript. -/
def getAllPagesRun (parseUrl : String → Bool) :
    List (Except AscError Json) → Option (Except AscError (List Json))
  | [] => none
  | .error e :: _ => some (.error e)
  | .ok page :: rest =>
      if continuesAfter parseUrl page then
        match getAllPagesRun parseUrl rest with
        | none => none
        | some (.error e) => some (.error e)
        | some (.ok tail) => some (.ok (pageData page ++ tail))
      else some (.ok (pageData page))

/-! ## Version selection (`api/versions.rs`) -/

/-- The fixed priority-state list of `VersionsAPI::get_current`. -/
def priorityStates : List String :=
  ["READY_FOR_SALE", "PROCESSING_FOR_APP_STORE", "PENDING_DEVELOPER_RELEASE",
   "IN_REVIEW", "WAITING_FOR_REVIEW", "PREPARE_FOR_SUBMISSION",
   "DEVELOPER_REJECTED"]

/-- `version.get("attributes").and_then(get("appStoreState")).and_then(as_str)`. -/
def appStoreState (version : Json) : Option String :=
  ((version.getField "attributes").bind (Json.getField · "appStoreState")).bind
    Json.asStr

/-- The nested loops of `get_current`: for each state in order, scan the
versions in order and return the first whose `appStoreState` equals the
state; after all states, fall back to the first version. -/
def getCurrentFrom (states : List String) (versions : List Json) : Option Json :=
  match states with
  | [] => versions.head?
  | s :: rest =>
      match versions.find? (fun v => appStoreState v = some s) with
      | some v => some v
      | none => getCurrentFrom rest versions

/-- `VersionsAPI::get_current`, applied to the version list returned by
`get_all` (the success value; a failed fetch propagates before the scan). -/
def getCurrent (versions : List Json) : Option Json :=
  getCurrentFrom priorityStates versions

/-! ## Auxiliary definitions for stating and witnessing the claims -/

/-- Whether an error is of the `Authentication` kind. -/
def AscError.isAuthentication : AscError → Bool
  | .Authentication _ => true
  | _ => false

/-- Whether a request outcome is an `Authentication`-kind error. -/
def isAuthenticationError (r : Except AscError Json) : Bool :=
  match r with
  | .error e => e.isAuthentication
  | .ok _ => false

/-- A first mocked page: two `data` items and a `links.next` continuation. -/
def specPage1 : Json :=
  .obj [("data", .arr [.str "a1", .str "a2"]),
        ("links", .obj [("next",
          .str "https://api.appstoreconnect.apple.com/v1/apps?cursor=2")])]

/-- A second mocked page: one `data` item and a `links.next` continuation. -/
def specPage2 : Json :=
  .obj [("data", .arr [.str "b1"]),
        ("links", .obj [("next",
          .str "https://api.appstoreconnect.apple.com/v1/apps?cursor=3")])]

/-- A third mocked page: one `data` item and no `links`. -/
def specPage3 : Json :=
  .obj [("data", .arr [.str "c1"])]

/-- The parse of the body `{"errors":[{"title":"App not found"}]}`. -/
def notFoundBody : Json :=
  .obj [("errors", .arr [.obj [("title", .str "App not found")]])]

/-- The parse of a body whose single error entry has no fields at all. -/
def bareErrorEntryBody : Json :=
  .obj [("errors", .arr [.obj []])]

/-- A version resource in the `PREPARE_FOR_SUBMISSION` state. -/
def versionPrepare : Json :=
  .obj [("id", .str "v1"),
        ("attributes", .obj [("appStoreState", .str "PREPARE_FOR_SUBMISSION")])]

/-- A version resource in the `READY_FOR_SALE` state. -/
def versionReady : Json :=
  .obj [("id", .str "v2"),
        ("attributes", .obj [("appStoreState", .str "READY_FOR_SALE")])]

end Asc

namespace Asc

/-! ## Claims -/

/-- C1 counterexample: a 401 response does **not** produce an
`Authentication`-kind error — `handle_response` maps 401 to the generic
`Api` variant (base.rs lines 105-107), so the outcome is not
distinguishable by kind from other `Api` errors. -/
theorem c1_counterexample :
    isAuthenticationError (handleResponse 401 false none) = false ∧
    handleResponse 401 false none =
      .error (.Api "Authentication failed. Check your credentials.") :=
  ⟨rfl, rfl⟩

/-- C1 (amended): for every response with HTTP status 401, `handle_response`
returns the generic `Api`-kind error with the fixed message
"Authentication failed. Check your credentials."; this is the same kind as
the 403 and catch-all outcomes, not a dedicated `Authentication` kind. -/
theorem c1_unauthorized (textEmpty : Bool) (parsed : Option Json) :
    handleResponse 401 textEmpty parsed =
      .error (.Api "Authentication failed. Check your credentials.") := by
  simp [handleResponse]

/-- C2: `get_token` returns the cached token unchanged when
`now < expiry - 60`, otherwise generates, stores and returns a fresh token
with recorded expiry `now + 20*60`; in every case the token handed out is
recorded in the cache with an expiry more than 60 seconds away. -/
theorem c2_get_token (cache : TokenCache) (now : Int) (fresh : String) :
    (∀ token expiry, cache = some (token, expiry) → now < expiry - 60 →
      getToken cache now fresh = (token, cache)) ∧
    (∀ token expiry, cache = some (token, expiry) → ¬ now < expiry - 60 →
      getToken cache now fresh = (fresh, some (fresh, now + 20 * 60))) ∧
    (cache = none →
      getToken cache now fresh = (fresh, some (fresh, now + 20 * 60))) ∧
    (∃ expiry, (getToken cache now fresh).2 =
        some ((getToken cache now fresh).1, expiry) ∧ now < expiry - 60) := by
  refine ⟨?_, ?_, ?_, ?_⟩
  · rintro token expiry rfl h
    simp [getToken, h]
  · rintro token expiry rfl h
    simp [getToken, h]
  · rintro rfl
    simp [getToken]
  · match cache with
    | none => exact ⟨now + 20 * 60, by simp [getToken], by omega⟩
    | some (token, expiry) =>
        by_cases h : now < expiry - 60
        · exact ⟨expiry, by simp [getToken, h], h⟩
        · exact ⟨now + 20 * 60, by simp [getToken, h], by omega⟩

/-- C2 witness: a concrete cache hit well before expiry. -/
theorem c2_get_token_witness :
    getToken (some ("cached", 1000)) 0 "new" = ("cached", some ("cached", 1000)) :=
  (c2_get_token (some ("cached", 1000)) 0 "new").1 "cached" 1000 rfl (by decide)

/-- C3: the claims signed by `generate_token` satisfy `iat < exp`,
`exp - iat = 1200` seconds exactly, `iss` is the issuer identifier and
`aud` is the fixed service audience string. -/
theorem c3_token_claims (keyId issuerId : String) (now : Int) :
    (generateToken keyId issuerId now).2.iat <
      (generateToken keyId issuerId now).2.exp ∧
    (generateToken keyId issuerId now).2.exp -
      (generateToken keyId issuerId now).2.iat = 1200 ∧
    (generateToken keyId issuerId now).2.iss = issuerId ∧
    (generateToken keyId issuerId now).2.aud = "appstoreconnect-v1" := by
  refine ⟨?_, ?_, rfl, rfl⟩
  · simp [generateToken]
  · simp [generateToken]

/-- C4: when every fetched page except the last carries a continuation link
accepted by the URL parser and the last page does not, `get_all_pages`
consumes exactly one response per page and returns, without error, the
in-order concatenation of the `data` arrays of all fetched pages. -/
theorem c4_paginate (parseUrl : String → Bool) (pages : List Json)
    (hne : pages ≠ [])
    (hmid : ∀ p ∈ pages.dropLast, continuesAfter parseUrl p = true)
    (hlast : ∀ p, pages.getLast? = some p → continuesAfter parseUrl p = false) :
    getAllPagesRun parseUrl (pages.map Except.ok) =
      some (Except.ok (pages.map pageData).flatten) := by
  induction pages with
  | nil => exact absurd rfl hne
  | cons p rest ih =>
      match rest with
      | [] =>
          have hstop : continuesAfter parseUrl p = false := hlast p rfl
          simp [getAllPagesRun, hstop]
      | q :: rest2 =>
          have hp : continuesAfter parseUrl p = true := by
            apply hmid
            rw [List.dropLast_cons₂]
            exact List.mem_cons_self p _
          have hmid2 : ∀ x ∈ (q :: rest2).dropLast,
              continuesAfter parseUrl x = true := by
            intro x hx
            apply hmid
            rw [List.dropLast_cons₂]
            exact List.mem_cons_of_mem p hx
          have hlast2 : ∀ x, (q :: rest2).getLast? = some x →
              continuesAfter parseUrl x = false := by
            intro x hx
            exact hlast x (by rw [List.getLast?_cons_cons]; exact hx)
          have ih2 := ih (by simp) hmid2 hlast2
          rw [List.map_cons]
          have step : getAllPagesRun parseUrl
              (Except.ok p :: List.map Except.ok (q :: rest2)) =
              (if continuesAfter parseUrl p = true then
                match getAllPagesRun parseUrl (List.map Except.ok (q :: rest2)) with
                | none => none
                | some (Except.error e) => some (Except.error e)
                | some (Except.ok tail) => some (Except.ok (pageData p ++ tail))
              else some (Except.ok (pageData p))) := rfl
          rw [step, ih2, hp]
          simp

/-- C4 witness: the spec's three-page scenario — pages 1 and 2 carry a
parseable `links.next`, page 3 omits `links`; the run consumes all three
responses and returns the concatenated `data` items. -/
theorem c4_paginate_witness :
    getAllPagesRun (fun _ => true)
      [Except.ok specPage1, Except.ok specPage2, Except.ok specPage3] =
      some (Except.ok [Json.str "a1", Json.str "a2", Json.str "b1",
        Json.str "c1"]) :=
  c4_paginate (fun _ => true) [specPage1, specPage2, specPage3]
    (by simp) (by decide)
    (by intro p hp
        have h := Option.some.inj hp
        subst h
        decide)

/-- C5: when a page fetch mid-pagination fails, `get_all_pages` returns that
underlying request error and discards every previously accumulated item
(no partial-success return). -/
theorem c5_paginate_error (parseUrl : String → Bool) (pages : List Json)
    (e : AscError) (rest : List (Except AscError Json))
    (hcont : ∀ p ∈ pages, continuesAfter parseUrl p = true) :
    getAllPagesRun parseUrl
      (pages.map Except.ok ++ Except.error e :: rest) =
      some (Except.error e) := by
  induction pages with
  | nil => simp [getAllPagesRun]
  | cons p ps ih =>
      have hp : continuesAfter parseUrl p = true := hcont p (List.mem_cons_self p ps)
      have ih2 := ih (fun x hx => hcont x (List.mem_cons_of_mem p hx))
      simp [getAllPagesRun, hp, ih2]

/-- C5 witness: one good page followed by a failed fetch — the run yields
the underlying error, not the items of the first page. -/
theorem c5_paginate_error_witness :
    getAllPagesRun (fun _ => true)
      [Except.ok specPage1, Except.error (AscError.NotFound "boom")] =
      some (Except.error (AscError.NotFound "boom")) :=
  c5_paginate_error (fun _ => true) [specPage1] (AscError.NotFound "boom") []
    (by decide)

/-- C7: the first request of `get_all_pages` carries a `limit` query
parameter equal to `min(limit, 200)` when a limit is supplied and to `200`
otherwise. -/
theorem c7_initial_limit (params : Option (List (String × String))) :
    (∀ l : Nat, (initialParams params (some l)).lookup "limit" =
      some (toString (min l 200))) ∧
    (initialParams params none).lookup "limit" = some (toString (200 : Nat)) := by
  constructor
  · intro l
    simp [initialParams, insertParam, List.lookup]
  · simp [initialParams, insertParam, List.lookup]

/-- C6: a 404 response always yields a `NotFound`-kind error; when the body
parses as an `{errors: [...]}` document with a non-empty array, the message
is the first entry's title, else detail, else code (with the fixed fallback
when all are absent); when the body fails to parse as such a document, or
the array is empty, the message is exactly "Resource not found". -/
theorem c6_not_found (textEmpty : Bool) (parsed : Option Json) :
    (∀ er firstErr, parsed.bind decodeErrorResponse = some er →
      er.errors.head? = some firstErr →
      handleResponse 404 textEmpty parsed = .error (.NotFound
        (((firstErr.title.or firstErr.detail).or firstErr.code).getD
          "Resource not found"))) ∧
    (parsed.bind decodeErrorResponse = none →
      handleResponse 404 textEmpty parsed =
        .error (.NotFound "Resource not found")) ∧
    (∀ er, parsed.bind decodeErrorResponse = some er → er.errors = [] →
      handleResponse 404 textEmpty parsed =
        .error (.NotFound "Resource not found")) := by
  refine ⟨?_, ?_, ?_⟩
  · intro er firstErr hdec hhead
    have hmsg : extractErrorMessage parsed =
        (firstErr.title.or firstErr.detail).or firstErr.code := by
      simp [extractErrorMessage, hdec, hhead]
    simp [handleResponse, hmsg]
  · intro hdec
    have hmsg : extractErrorMessage parsed = none := by
      simp [extractErrorMessage, hdec]
    simp [handleResponse, hmsg]
  · intro er hdec hnil
    have hmsg : extractErrorMessage parsed = none := by
      simp [extractErrorMessage, hdec, hnil]
    simp [handleResponse, hmsg]

/-- C6 witness: the spec's concrete case — status 404 with body
`{"errors":[{"title":"App not found"}]}` yields a `NotFound` error whose
message is exactly "App not found". -/
theorem c6_not_found_witness :
    handleResponse 404 false (some notFoundBody) =
      .error (.NotFound "App not found") :=
  (c6_not_found false (some notFoundBody)).1
    ⟨[⟨none, none, none, some "App not found", none, none⟩]⟩
    ⟨none, none, none, some "App not found", none, none⟩ rfl rfl

/-- C8: `Auth::new` fails with an `Authentication`-kind error when the key
file is missing, unreadable, or holds malformed key material — all before
any network request (construction involves no transport at all) — and on
success the cached token is empty. -/
theorem c8_construction (keyId issuerId path : String)
    (readResult : Except String String)
    (ecPemParse : String → Except String Unit) :
    (Auth.new keyId issuerId path false readResult ecPemParse =
      .error (.Authentication ("Private key file not found: " ++ path))) ∧
    (∀ e, readResult = .error e →
      Auth.new keyId issuerId path true readResult ecPemParse =
        .error (.Authentication ("Failed to read private key file: " ++ e))) ∧
    (∀ content e, readResult = .ok content → ecPemParse content = .error e →
      Auth.new keyId issuerId path true readResult ecPemParse =
        .error (.Authentication ("Failed to parse private key: " ++ e))) ∧
    (∀ content, readResult = .ok content → ecPemParse content = .ok () →
      Auth.new keyId issuerId path true readResult ecPemParse =
        .ok { keyId := keyId, issuerId := issuerId, tokenCache := none }) := by
  refine ⟨by simp [Auth.new], ?_, ?_, ?_⟩
  · rintro e rfl
    simp [Auth.new]
  · rintro content e rfl h
    simp [Auth.new, h]
  · rintro content rfl h
    simp [Auth.new, h]

/-- C8 witness: construction over a readable, well-formed key succeeds with
an empty token cache. -/
theorem c8_construction_witness :
    Auth.new "KID" "ISS" "key.p8" true (.ok "PEM") (fun _ => .ok ()) =
      .ok { keyId := "KID", issuerId := "ISS", tokenCache := none } :=
  (c8_construction "KID" "ISS" "key.p8" (.ok "PEM")
    (fun _ => .ok ())).2.2.2 "PEM" rfl rfl

/-- Case analysis of the nested loops of `get_current`, generalized over the
priority-state list: if some state in the list is matched by some version,
the result is the first version matching the earliest such state; if no
state is matched, the result is the first version. -/
theorem getCurrentFrom_cases (states : List String) (versions : List Json) :
    (∀ s, states.find?
        (fun st => versions.any (fun v => appStoreState v = some st)) = some s →
      getCurrentFrom states versions =
        versions.find? (fun v => appStoreState v = some s)) ∧
    (states.find?
        (fun st => versions.any (fun v => appStoreState v = some st)) = none →
      getCurrentFrom states versions = versions.head?) := by
  induction states with
  | nil =>
      refine ⟨?_, fun _ => rfl⟩
      intro s hs
      simp [List.find?] at hs
  | cons s0 rest ih =>
      by_cases hany : versions.any (fun v => appStoreState v = some s0) = true
      · have hfind : (s0 :: rest).find?
            (fun st => versions.any (fun v => appStoreState v = some st)) =
            some s0 := List.find?_cons_of_pos rest hany
        have hvsome : (versions.find?
            (fun v => appStoreState v = some s0)).isSome = true := by
          rw [List.find?_isSome]
          exact List.any_eq_true.mp hany
        obtain ⟨v, hv⟩ := Option.isSome_iff_exists.mp hvsome
        refine ⟨?_, ?_⟩
        · intro s hs
          rw [hfind] at hs
          obtain rfl : s0 = s := Option.some.inj hs
          simp [getCurrentFrom, hv]
        · intro hs
          rw [hfind] at hs
          exact absurd hs (by simp)
      · have hp : ¬ (fun st => versions.any
            (fun v => appStoreState v = some st)) s0 = true := hany
        have hfind : (s0 :: rest).find?
            (fun st => versions.any (fun v => appStoreState v = some st)) =
            rest.find?
              (fun st => versions.any (fun v => appStoreState v = some st)) :=
          List.find?_cons_of_neg rest hp
        have hvnone : versions.find?
            (fun v => appStoreState v = some s0) = none := by
          rw [List.find?_eq_none]
          intro v hv hcontra
          exact hany (List.any_eq_true.mpr ⟨v, hv, hcontra⟩)
        have hstep : getCurrentFrom (s0 :: rest) versions =
            getCurrentFrom rest versions := by
          simp [getCurrentFrom, hvnone]
        refine ⟨?_, ?_⟩
        · intro s hs
          rw [hfind] at hs
          rw [hstep]
          exact ih.1 s hs
        · intro hs
          rw [hfind] at hs
          rw [hstep]
          exact ih.2 hs

/-- C9: `get_current` scans the fixed priority-state list in order and
returns the first version whose `attributes.appStoreState` equals the
earliest matched priority state; when no version matches any priority
state it returns the first version; it returns `None` exactly when the
version list is empty. -/
theorem c9_get_current (versions : List Json) :
    (getCurrent versions = none ↔ versions = []) ∧
    (∀ s, priorityStates.find?
        (fun st => versions.any (fun v => appStoreState v = some st)) = some s →
      getCurrent versions =
        versions.find? (fun v => appStoreState v = some s)) ∧
    (priorityStates.find?
        (fun st => versions.any (fun v => appStoreState v = some st)) = none →
      getCurrent versions = versions.head?) := by
  obtain ⟨h1, h2⟩ := getCurrentFrom_cases priorityStates versions
  refine ⟨⟨?_, ?_⟩, h1, h2⟩
  · intro hnone
    rcases hfind : priorityStates.find?
        (fun st => versions.any (fun v => appStoreState v = some st)) with _ | s
    · rw [getCurrent] at hnone
      rw [h2 hfind] at hnone
      exact List.head?_eq_none_iff.mp hnone
    · rw [getCurrent] at hnone
      rw [h1 s hfind] at hnone
      have hps :=
        @List.find?_some String
          (fun st => versions.any (fun v => appStoreState v = some st))
          s priorityStates hfind
      obtain ⟨v, hv, hpv⟩ := List.any_eq_true.mp hps
      rw [List.find?_eq_none] at hnone
      exact absurd hpv (hnone v hv)
  · rintro rfl
    have hfind : priorityStates.find?
        (fun st => ([] : List Json).any
          (fun v => appStoreState v = some st)) = none := by
      rw [List.find?_eq_none]
      intro x _ hx
      simp at hx
    rw [getCurrent, h2 hfind]
    rfl

/-- C9 witness: with a `PREPARE_FOR_SUBMISSION` version listed before a
`READY_FOR_SALE` one, the `READY_FOR_SALE` version wins (highest-priority
state, not list order). -/
theorem c9_get_current_witness :
    getCurrent [versionPrepare, versionReady] = some versionReady :=
  (c9_get_current [versionPrepare, versionReady]).2.1 "READY_FOR_SALE" rfl

/-- C10: for a 404, 409, or 422 response whose body parses as an
`{errors: [...]}` document with a non-empty array whose first entry has
none of title, detail, or code, no message is extracted and the fixed
per-status fallback message is used. -/
theorem c10_missing_fields (textEmpty : Bool) (parsed : Option Json)
    (er : ErrorResponse) (firstErr : ApiError)
    (hdec : parsed.bind decodeErrorResponse = some er)
    (hhead : er.errors.head? = some firstErr)
    (ht : firstErr.title = none) (hd : firstErr.detail = none)
    (hc : firstErr.code = none) :
    extractErrorMessage parsed = none ∧
    handleResponse 404 textEmpty parsed =
      .error (.NotFound "Resource not found") ∧
    handleResponse 409 textEmpty parsed =
      .error (.Conflict "Conflict occurred") ∧
    handleResponse 422 textEmpty parsed =
      .error (.Validation "Validation failed") := by
  have hmsg : extractErrorMessage parsed = none := by
    simp [extractErrorMessage, hdec, hhead, ht, hd, hc]
  exact ⟨hmsg, by simp [handleResponse, hmsg], by simp [handleResponse, hmsg],
    by simp [handleResponse, hmsg]⟩

/-- C10 witness: the body `{"errors":[{}]}` decodes with one entry carrying
no fields; each of the three statuses falls back to its fixed message. -/
theorem c10_missing_fields_witness :
    extractErrorMessage (some bareErrorEntryBody) = none ∧
    handleResponse 404 false (some bareErrorEntryBody) =
      .error (.NotFound "Resource not found") ∧
    handleResponse 409 false (some bareErrorEntryBody) =
      .error (.Conflict "Conflict occurred") ∧
    handleResponse 422 false (some bareErrorEntryBody) =
      .error (.Validation "Validation failed") :=
  c10_missing_fields false (some bareErrorEntryBody)
    ⟨[⟨none, none, none, none, none, none⟩]⟩
    ⟨none, none, none, none, none, none⟩ rfl rfl rfl rfl rfl

end Asc
